import Mathlib

/-!
Verification of the csvmapper mapping/transformation engine.

The TypeScript source is embedded shallowly:

* JS strings are `String`, JS string lists are `List String`;
* the TS `Delimiter` type (single-character strings `","`, `";"`, `"\t"`) is
  modelled as `Char` where the delimiter is consumed character-wise and as a
  plain `String` where it is stored/compared as configuration data;
* JS numbers are modelled as `Option ℚ` (`none` = `NaN`); the model covers
  finite decimal numerals (optional sign, digits, decimal point, optional
  exponent), not the `Infinity` literals, and `Math.round` is the ECMA-262
  rounding (`⌊x + 1/2⌋`, half toward +∞);
* the external `@std/csv` and `@std/datetime` libraries are not part of the
  repository; they are modelled from the specification (definitions marked
  `Modelled from the spec:`).
-/

/-! ## JS string primitives -/

/-- JS whitespace test used by `String.prototype.trim` (ASCII subset). -/
def jsWhitespace (c : Char) : Bool :=
  c = ' ' || c = '\t' || c = '\n' || c = '\r'

/-- Drop trailing JS whitespace from a character list. -/
def dropTrailingWs (cs : List Char) : List Char :=
  (cs.reverse.dropWhile jsWhitespace).reverse

/-- Model of `String.prototype.trim` on a character list. -/
def jsTrimList (cs : List Char) : List Char :=
  dropTrailingWs (cs.dropWhile jsWhitespace)

/-- Model of JS `value.trim()`. -/
def jsTrim (s : String) : String :=
  ⟨jsTrimList s.data⟩

/-- Model of JS `value.trimEnd()`. -/
def jsTrimEnd (s : String) : String :=
  ⟨dropTrailingWs s.data⟩

/-- Model of JS `value.toLowerCase()` (ASCII case mapping). -/
def toLowerStr (s : String) : String :=
  ⟨s.data.map Char.toLower⟩

/-- Model of JS `value.toUpperCase()` (ASCII case mapping). -/
def toUpperStr (s : String) : String :=
  ⟨s.data.map Char.toUpper⟩

/-- Split a character list on a separator character (JS `split` with a
single-character separator: no empty result list, empty pieces kept). -/
def splitOnChar (sep : Char) : List Char → List (List Char)
  | [] => [[]]
  | c :: r =>
    match splitOnChar sep r with
    | [] => [[]]
    | l :: ls => if c = sep then [] :: l :: ls else (c :: l) :: ls

/-- Model of JS `s.split(sep)` for a single-character separator. -/
def jsSplit (s : String) (sep : Char) : List String :=
  (splitOnChar sep s.data).map (fun cs => (⟨cs⟩ : String))

/-- Model of JS `s.startsWith(p)`. -/
def jsStartsWith (s p : String) : Bool :=
  s.data.take p.data.length = p.data

/-- Model of JS `s.slice(n)` for a non-negative index. -/
def jsSlice (s : String) (n : ℕ) : String :=
  ⟨s.data.drop n⟩

/-- Model of JS `array.join(sep)` for an array of strings. -/
def joinSep (sep : String) : List String → String
  | [] => ""
  | [x] => x
  | x :: y :: ys => x ++ sep ++ joinSep sep (y :: ys)

/-- Numeric value of a list of decimal digit characters. -/
def natOfDigits (ds : List Char) : ℕ :=
  ds.foldl (fun n c => 10 * n + (c.toNat - '0'.toNat)) 0

/-! ## Numeric model (`src/utils/mapping.ts`: `parseNumber`, `formatNumber`) -/

/-- Leading run of decimal digits of a character list. -/
def digitsRun (cs : List Char) : List Char × List Char :=
  (cs.takeWhile Char.isDigit, cs.dropWhile Char.isDigit)

/-- Optionally signed digit run, as an integer (`0` when no digits). -/
def parseSignedDigits (cs : List Char) : Int :=
  match cs with
  | '-' :: rest => -(natOfDigits (digitsRun rest).1 : Int)
  | '+' :: rest => (natOfDigits (digitsRun rest).1 : Int)
  | _ => (natOfDigits (digitsRun cs).1 : Int)

/-- Exponent suffix of a JS float literal: `e`/`E`, optional sign, digits.
A malformed exponent (no digits) contributes a factor of 1, matching
`parseFloat`'s longest-valid-prefix behavior. -/
def parseExponent (cs : List Char) : Int :=
  match cs with
  | 'e' :: rest => parseSignedDigits rest
  | 'E' :: rest => parseSignedDigits rest
  | _ => 0

/-- Scale a rational by an integer power of ten. -/
def scalePow10 (q : ℚ) (e : Int) : ℚ :=
  match e with
  | Int.ofNat n => q * 10 ^ n
  | Int.negSucc n => q / 10 ^ (n + 1)

/-- Model of JS `parseFloat`: parse the longest numeric prefix
(optional sign, integer digits, optional fraction, optional exponent);
`none` models `NaN` (no digits at all). `Infinity` literals are not modelled. -/
def parseFloatPrefix (cs : List Char) : Option ℚ :=
  let (sign, cs1) : ℚ × List Char :=
    match cs with
    | '-' :: rest => (-1, rest)
    | '+' :: rest => (1, rest)
    | _ => (1, cs)
  let (ip, cs2) := digitsRun cs1
  let (fp, cs3) :=
    match cs2 with
    | '.' :: rest => digitsRun rest
    | _ => ([], cs2)
  if ip = [] ∧ fp = [] then none
  else
    let mantissa : ℚ := (natOfDigits ip : ℚ) + (natOfDigits fp : ℚ) / 10 ^ fp.length
    some (sign * scalePow10 mantissa (parseExponent cs3))

/-- Remove every occurrence of a character (JS `replace(/c/g, "")`). -/
def removeAll (c : Char) (cs : List Char) : List Char :=
  cs.filter (fun x => x ≠ c)

/-- Replace the first occurrence of a character (JS `replace(",", ".")`
with a string pattern replaces only the first match). -/
def replaceFirst (c d : Char) : List Char → List Char
  | [] => []
  | x :: xs => if x = c then d :: xs else x :: replaceFirst c d xs

/-- `parseNumber` from `src/utils/mapping.ts`: strip thousand separators per
the decimal-separator convention, then parse as a float; `none` is `NaN`. -/
def parseNumber (value : String) (decimalSeparator : String) : Option ℚ :=
  if value = "" ∨ jsTrim value = "" then none
  else
    let cleaned := (jsTrim value).data
    let cleaned :=
      if decimalSeparator = "," then replaceFirst ',' '.' (removeAll '.' cleaned)
      else removeAll ',' cleaned
    parseFloatPrefix cleaned

/-- ECMA-262 `Math.round`: round half toward positive infinity. -/
def jsRound (q : ℚ) : Int :=
  ⌊q + 1 / 2⌋

/-- Decimal digits of the fractional part of a non-negative rational,
up to `fuel` digits (JS doubles print finitely many digits). -/
def fracDigits (fuel : ℕ) (q : ℚ) : String :=
  match fuel with
  | 0 => ""
  | n + 1 =>
    if q = 0 then ""
    else
      let q10 := q * 10
      toString ⌊q10⌋ ++ fracDigits n (q10 - ⌊q10⌋)

/-- `formatNumber` from `src/utils/mapping.ts`: JS `Number.toString` for the
parsed value, modelled as a plain decimal expansion (the `NaN → ""` branch is
covered by the caller matching on `none`). -/
def formatNumber (q : ℚ) : String :=
  if q.den = 1 then toString q.num
  else
    let a := |q|
    let sign := if q < 0 then "-" else ""
    sign ++ toString ⌊a⌋ ++ "." ++ fracDigits 20 (a - ⌊a⌋)

/-! ## Date engine (`src/utils/date.ts` plus a spec model of `@std/datetime`) -/

/-- Format tokens of the date engine's vocabulary. -/
inductive FmtToken where
  | yyyy | MM | dd | HH | mm | ss
  | lit (c : Char)
deriving DecidableEq, Repr

/-- Modelled from the spec: the `@std/datetime` format-string lexer is not in
the repository; §4.4 gives the token vocabulary `yyyy MM dd HH mm ss`, other
characters being literals. -/
def lexFormat : List Char → List FmtToken
  | 'y' :: 'y' :: 'y' :: 'y' :: r => FmtToken.yyyy :: lexFormat r
  | 'M' :: 'M' :: r => FmtToken.MM :: lexFormat r
  | 'd' :: 'd' :: r => FmtToken.dd :: lexFormat r
  | 'H' :: 'H' :: r => FmtToken.HH :: lexFormat r
  | 'm' :: 'm' :: r => FmtToken.mm :: lexFormat r
  | 's' :: 's' :: r => FmtToken.ss :: lexFormat r
  | c :: r => FmtToken.lit c :: lexFormat r
  | [] => []

/-- A parsed date-time value (the model of the JS `Date` produced by
`@std/datetime`'s `parse`). -/
structure DateParts where
  year : ℕ
  month : ℕ
  day : ℕ
  hour : ℕ
  minute : ℕ
  second : ℕ
deriving DecidableEq, Repr

/-- Take exactly `n` decimal digits from the front of `cs`. -/
def takeDigits (n : ℕ) (cs : List Char) : Option (ℕ × List Char) :=
  let pre := cs.take n
  if pre.length = n ∧ pre.all Char.isDigit then some (natOfDigits pre, cs.drop n)
  else none

/-- Modelled from the spec: the `@std/datetime` parser is not in the
repository; each token consumes its fixed-width digit field or literal
character, and the whole value must be consumed. -/
def runTokens : List FmtToken → List Char → DateParts → Option DateParts
  | [], [], p => some p
  | [], _ :: _, _ => none
  | FmtToken.yyyy :: ts, cs, p =>
    match takeDigits 4 cs with
    | some (v, rest) => runTokens ts rest { p with year := v }
    | none => none
  | FmtToken.MM :: ts, cs, p =>
    match takeDigits 2 cs with
    | some (v, rest) => runTokens ts rest { p with month := v }
    | none => none
  | FmtToken.dd :: ts, cs, p =>
    match takeDigits 2 cs with
    | some (v, rest) => runTokens ts rest { p with day := v }
    | none => none
  | FmtToken.HH :: ts, cs, p =>
    match takeDigits 2 cs with
    | some (v, rest) => runTokens ts rest { p with hour := v }
    | none => none
  | FmtToken.mm :: ts, cs, p =>
    match takeDigits 2 cs with
    | some (v, rest) => runTokens ts rest { p with minute := v }
    | none => none
  | FmtToken.ss :: ts, cs, p =>
    match takeDigits 2 cs with
    | some (v, rest) => runTokens ts rest { p with second := v }
    | none => none
  | FmtToken.lit ch :: ts, cs, p =>
    match cs with
    | c :: rest => if c = ch then runTokens ts rest p else none
    | [] => none

/-- Gregorian leap-year test. -/
def isLeapYear (y : ℕ) : Bool :=
  y % 4 = 0 && (y % 100 ≠ 0 || y % 400 = 0)

/-- Days in a month of the Gregorian calendar. -/
def daysInMonth (y m : ℕ) : ℕ :=
  if m = 2 then (if isLeapYear y then 29 else 28)
  else if m = 4 ∨ m = 6 ∨ m = 9 ∨ m = 11 then 30
  else 31

/-- Modelled from the spec: `@std/datetime` parsing of an invalid calendar
date fails (§8: `"2024-13-40"` parses under no candidate format). -/
def validDate (p : DateParts) : Bool :=
  1 ≤ p.month && p.month ≤ 12 &&
  1 ≤ p.day && p.day ≤ daysInMonth p.year p.month &&
  p.hour ≤ 23 && p.minute ≤ 59 && p.second ≤ 59

/-- `tryParseDate` from `src/utils/date.ts`: `null` on empty value or format,
otherwise try the library parse, `null` on any failure. -/
def tryParseDate (value formatStr : String) : Option DateParts :=
  if value = "" ∨ formatStr = "" then none
  else
    match runTokens (lexFormat formatStr.data) value.data ⟨1970, 1, 1, 0, 0, 0⟩ with
    | none => none
    | some p => if validDate p then some p else none

/-- Zero-pad a natural to two digits. -/
def pad2 (n : ℕ) : String :=
  if n < 10 then "0" ++ toString n else toString n

/-- Zero-pad a natural to four digits. -/
def pad4 (n : ℕ) : String :=
  if n < 10 then "000" ++ toString n
  else if n < 100 then "00" ++ toString n
  else if n < 1000 then "0" ++ toString n
  else toString n

/-- Modelled from the spec: `@std/datetime`'s `format` renders each token of
the vocabulary as its zero-padded field, literals unchanged. -/
def formatDate (p : DateParts) (fmt : String) : String :=
  String.join ((lexFormat fmt.data).map fun t =>
    match t with
    | FmtToken.yyyy => pad4 p.year
    | FmtToken.MM => pad2 p.month
    | FmtToken.dd => pad2 p.day
    | FmtToken.HH => pad2 p.hour
    | FmtToken.mm => pad2 p.minute
    | FmtToken.ss => pad2 p.second
    | FmtToken.lit c => String.singleton c)

/-- `transformDate` from `src/utils/date.ts`: explicit source format; empty
string on parse failure. -/
def transformDate (value sourceFormat targetFormat : String) : String :=
  match tryParseDate value sourceFormat with
  | none => ""
  | some d => formatDate d targetFormat

/-- `DATE_FORMATS` from `src/utils/date.ts`. -/
def DATE_FORMATS : List String :=
  ["yyyy-MM-dd", "dd/MM/yyyy", "dd-MM-yyyy", "dd.MM.yyyy", "yyyy/MM/dd"]

/-- The `for`-loop body of `parseDateAutoDetect`: first successful parse. -/
def firstParse (value : String) : List String → Option DateParts
  | [] => none
  | f :: fs =>
    match tryParseDate value f with
    | some d => some d
    | none => firstParse value fs

/-- `parseDateAutoDetect` from `src/utils/date.ts`. -/
def parseDateAutoDetect (value : String) : Option DateParts :=
  if value = "" then none
  else firstParse value DATE_FORMATS

/-- `formatDateAutoDetect` from `src/utils/date.ts`. -/
def formatDateAutoDetect (value targetFormat : String) : String :=
  match parseDateAutoDetect value with
  | none => ""
  | some d => formatDate d targetFormat

/-! ## Value/type transformation engine (`src/utils/transformation.ts`) -/

/-- A value-conversion rule (`Conversion` in `src/utils/mapping.ts`). -/
structure Conversion where
  sourceValue : String
  targetValue : String
deriving DecidableEq, Repr

/-- The `for`-loop over `conversions` in `transformValue`: first
case-insensitive match wins. -/
def findConversion (value : String) : List Conversion → Option String
  | [] => none
  | conv :: rest =>
    if toLowerStr conv.sourceValue = toLowerStr value then some conv.targetValue
    else findConversion value rest

/-- `transformValue` from `src/utils/transformation.ts` (`convertValue` in
`src/islands/CSVMapper.tsx` is textually identical). `sourceType` is kept as a
raw string because the UI stores the unset type as `""`. -/
def transformValue (value sourceType : String) (conversions : List Conversion)
    (decimalSeparator : String) : String :=
  match findConversion value conversions with
  | some target => target
  | none =>
    if sourceType = "boolean" then
      let lower := toLowerStr value
      if ["true", "t", "yes", "y", "1"].contains lower then "true"
      else if ["false", "f", "no", "n", "0"].contains lower then "false"
      else value
    else if sourceType = "integer" then
      match parseNumber value decimalSeparator with
      | none => value
      | some num => toString (jsRound num)
    else if sourceType = "number" then
      match parseNumber value decimalSeparator with
      | none => value
      | some num =>
        let s := formatNumber num
        if s = "" then value else s
    else value

/-- `applyTransformation` from `src/utils/transformation.ts`; the optional
`transformation` string is `Option String`, the JS-falsy `""` also passing
through. -/
def applyTransformation (value : String) (transformation : Option String) : String :=
  match transformation with
  | none => value
  | some t =>
    if t = "" then value
    else if t = "uppercase" then toUpperStr value
    else if t = "lowercase" then toLowerStr value
    else if t = "trim" then jsTrim value
    else if t = "date" then formatDateAutoDetect value "yyyy-MM-dd"
    else if jsStartsWith t "dateFormat:" then formatDateAutoDetect value (jsSlice t 11)
    else if jsStartsWith t "date:" then
      match jsSplit (jsSlice t 5) ':' with
      | [p0] => formatDateAutoDetect value p0
      | p0 :: p1 :: _ =>
        transformDate value
          (if p0 = "" then "yyyy-MM-dd" else p0)
          (if p1 = "" then "yyyy-MM-dd" else p1)
      | [] => value
    else value

/-! ## CSV parser/serializer (`src/utils/csv.ts` plus a spec model of `@std/csv`) -/

/-- The header row + row matrix produced by parsing (`ParsedCSV`). -/
structure ParsedCSV where
  headers : List String
  rows : List (List String)
deriving DecidableEq, Repr

/-- Parser modes of the CSV reading state machine. -/
inductive PMode where
  | startField | inQuoted | afterQuote | inUnquoted
deriving DecidableEq, Repr

/-- State of the CSV reading state machine: current mode, characters of the
field being read, fields of the record being read, finished records. -/
structure PState where
  mode : PMode
  field : List Char
  record : List String
  records : List (List String)
deriving DecidableEq, Repr

/-- Modelled from the spec: one character step of `@std/csv`'s `parse`
(standard CSV quoting: `"` encloses a field that may contain the delimiter and
newlines, `""` inside quotes is a literal quote; lenient on malformed quoting;
blank lines are skipped). The model uses LF record ends. -/
def stepChar (sep : Char) (st : PState) (c : Char) : PState :=
  match st.mode with
  | PMode.startField =>
    if c = '"' then { st with mode := PMode.inQuoted }
    else if c = sep then { st with record := st.record ++ [""] }
    else if c = '\n' then
      if st.record = [] then st
      else ⟨PMode.startField, [], [], st.records ++ [st.record ++ [""]]⟩
    else { st with mode := PMode.inUnquoted, field := [c] }
  | PMode.inQuoted =>
    if c = '"' then { st with mode := PMode.afterQuote }
    else { st with field := st.field ++ [c] }
  | PMode.afterQuote =>
    if c = '"' then { st with mode := PMode.inQuoted, field := st.field ++ ['"'] }
    else if c = sep then
      { st with mode := PMode.startField, record := st.record ++ [⟨st.field⟩], field := [] }
    else if c = '\n' then
      ⟨PMode.startField, [], [], st.records ++ [st.record ++ [⟨st.field⟩]]⟩
    else { st with mode := PMode.inUnquoted, field := st.field ++ [c] }
  | PMode.inUnquoted =>
    if c = sep then
      { st with mode := PMode.startField, record := st.record ++ [⟨st.field⟩], field := [] }
    else if c = '\n' then
      ⟨PMode.startField, [], [], st.records ++ [st.record ++ [⟨st.field⟩]]⟩
    else { st with field := st.field ++ [c] }

/-- Close the pending record (if any) at end of input. -/
def finalizeP (st : PState) : List (List String) :=
  match st.mode with
  | PMode.startField =>
    if st.record = [] then st.records else st.records ++ [st.record ++ [""]]
  | _ => st.records ++ [st.record ++ [⟨st.field⟩]]

/-- Modelled from the spec: `@std/csv`'s `parse` as a fold of `stepChar`. -/
def parseRecords (sep : Char) (cs : List Char) : List (List String) :=
  finalizeP (cs.foldl (stepChar sep) ⟨PMode.startField, [], [], []⟩)

/-- `parseCSV` from `src/utils/csv.ts`: trim, empty input gives the empty
table, first record is `headers`, the rest are `rows`. -/
def parseCSV (text : String) (delimiter : Char) : ParsedCSV :=
  let trimmed := jsTrimList text.data
  if trimmed = [] then ⟨[], []⟩
  else
    match parseRecords delimiter trimmed with
    | [] => ⟨[], []⟩
    | h :: t => ⟨h, t⟩

/-- Double every quote character (the content of a quoted CSV field). -/
def escapeQ : List Char → List Char
  | [] => []
  | '"' :: r => '"' :: '"' :: escapeQ r
  | c :: r => c :: escapeQ r

/-- A field wrapped in quotes with internal quotes doubled. -/
def quoteField (s : String) : List Char :=
  '"' :: (escapeQ s.data ++ ['"'])

/-- Join character lists with a single separator character. -/
def joinCharSep (sep : Char) : List (List Char) → List Char
  | [] => []
  | [x] => x
  | x :: y :: ys => x ++ sep :: joinCharSep sep (y :: ys)

/-- One serialized CSV record: every field quoted. -/
def recordLine (sep : Char) (r : List String) : List Char :=
  joinCharSep sep (r.map quoteField)

/-- Modelled from the spec: `@std/csv`'s `stringify` (§4.3: every field
unconditionally quoted with internal quotes doubled, records newline-joined,
no trailing newline). -/
def stdStringify (sep : Char) (records : List (List String)) : List Char :=
  joinCharSep '\n' (records.map (recordLine sep))

/-- `stringifyCSV` from `src/utils/csv.ts`: empty headers give `""`, else the
serialized `[headers, ...rows]` with the end trimmed. -/
def stringifyCSV (headers : List String) (rows : List (List String))
    (delimiter : Char) : String :=
  if headers = [] then ""
  else ⟨dropTrailingWs (stdStringify delimiter (headers :: rows))⟩

/-- Per-line delimiter tally of `detectDelimiter`: count commas, semicolons
and tabs outside quoted spans (the `inQuotes` toggle resets per line). -/
def countLine (cs : List Char) : ℕ × ℕ × ℕ :=
  (cs.foldl
    (fun acc c =>
      let (inQuotes, comma, semi, tab) := acc
      if c = '"' then (!inQuotes, comma, semi, tab)
      else if !inQuotes then
        if c = ',' then (inQuotes, comma + 1, semi, tab)
        else if c = ';' then (inQuotes, comma, semi + 1, tab)
        else if c = '\t' then (inQuotes, comma, semi, tab + 1)
        else acc
      else acc)
    ((false : Bool), 0, 0, 0)).2

/-- Accumulated delimiter counts over a list of lines. -/
def countLines (lines : List String) : ℕ × ℕ × ℕ :=
  lines.foldl
    (fun acc line =>
      let (c, s, t) := countLine line.data
      (acc.1 + c, acc.2.1 + s, acc.2.2 + t))
    (0, 0, 0)

/-- The sample taken by `detectDelimiter`: at most the first 10 lines of the
trimmed text. -/
def sampleLines (text : String) : List String :=
  (jsSplit (jsTrim text) '\n').take 10

/-- `detectDelimiter` from `src/utils/csv.ts`. The `Delimiter` result is the
single character of the TS one-character string. -/
def detectDelimiter (text : String) : Char :=
  let lines := sampleLines text
  if lines = [] then ','
  else
    let (comma, semi, tab) := countLines lines
    let n : ℚ := lines.length
    let avgComma : ℚ := comma / n
    let avgSemi : ℚ := semi / n
    let avgTab : ℚ := tab / n
    if 1 ≤ avgTab ∧ avgComma ≤ avgTab ∧ avgSemi ≤ avgTab then '\t'
    else if 1 ≤ avgSemi ∧ avgComma ≤ avgSemi then ';'
    else ','

/-! ## Output generator (`generateOutputCSV` in `src/islands/CSVMapper.tsx`) -/

/-- Per-column mapping state (`ColumnMapping` in `src/utils/mapping.ts`);
`sourceType` is a raw string because the UI stores the unset type as `""`. -/
structure ColumnMapping where
  sourceColumn : String
  sourceType : String
  targetColumn : String
  conversions : List Conversion
  transformation : Option String
  «include» : Bool
deriving DecidableEq, Repr

/-- Quote an output cell when it contains the delimiter or a quote character
(`output.includes(delimiter) || output.includes('"')`). -/
def quoteIfNeeded (delimiter : Char) (output : String) : String :=
  if delimiter ∈ output.data ∨ '"' ∈ output.data then
    ⟨'"' :: (escapeQ output.data ++ ['"'])⟩
  else output

/-- One cell of the generated output: look up the source column, coerce,
convert, transform, apply the boolean 1/0 rule, quote if needed. -/
def outputCell (headers : List String) (row : List String) (delimiter : Char)
    (decimalSeparator : String) (m : ColumnMapping) : String :=
  match headers.indexOf? m.sourceColumn with
  | none => ""
  | some colIndex =>
    let value := row.getD colIndex ""
    let converted := transformValue value m.sourceType m.conversions decimalSeparator
    let transformed := applyTransformation converted m.transformation
    let output :=
      if m.sourceType = "boolean" then
        if transformed = "true" then "1"
        else if transformed = "false" then "0"
        else transformed
      else transformed
    quoteIfNeeded delimiter output

/-- `generateOutputCSV` from `src/islands/CSVMapper.tsx` (the version in
`src/islands/CSVImportFormatter.tsx` is textually identical). -/
def generateOutputCSV (parsedCSV : ParsedCSV) (mappings : List ColumnMapping)
    (delimiter : Char) (decimalSeparator : String) : String :=
  let includedMappings := mappings.filter (fun m => m.«include»)
  if includedMappings = [] then ""
  else
    let delimStr := String.singleton delimiter
    let headerLine := joinSep delimStr (includedMappings.map (fun m => m.targetColumn))
    let dataLines := parsedCSV.rows.map (fun row =>
      joinSep delimStr (includedMappings.map
        (outputCell parsedCSV.headers row delimiter decimalSeparator)))
    joinSep "\n" (headerLine :: dataLines)

/-! ## Mapping configuration export (`src/utils/mapping.ts`) -/

/-- The portable `MappingConfig` document (`src/utils/mapping.ts`). Keyed
objects are association lists in document order. The `valueConversions` key of
the serialized format (read by the importers) is included as a field; the TS
`MappingConfig` interface does not declare it and `exportMappingConfig` never
writes it. -/
structure MappingConfig where
  version : String
  inputDelimiter : String
  outputDelimiter : String
  decimalSeparator : String
  mappings : List (String × String)
  typeTransformations : Option (List (String × String))
  transformations : Option (List (String × String))
  valueConversions : Option (List (String × List (String × String)))
deriving DecidableEq, Repr

/-- `ExportMappingOptions` from `src/utils/mapping.ts`. -/
structure ExportMappingOptions where
  mappings : List ColumnMapping
  inputDelimiter : String
  outputDelimiter : String
  decimalSeparator : String
deriving Repr

/-- `exportMappingConfig` from `src/utils/mapping.ts`: only included columns
are emitted; a type entry whenever `sourceType !== "string"`; a transformation
entry whenever the transformation string is truthy; the optional keys are
present only when non-empty. No `valueConversions` key is ever produced. -/
def exportMappingConfig (options : ExportMappingOptions) : MappingConfig :=
  let included := options.mappings.filter (fun m => m.«include»)
  let mappingsObj := included.map (fun m => (m.sourceColumn, m.targetColumn))
  let typeObj := (included.filter (fun m => m.sourceType ≠ "string")).map
    (fun m => (m.sourceColumn, m.sourceType))
  let transObj := included.filterMap (fun m =>
    match m.transformation with
    | some t => if t = "" then none else some (m.sourceColumn, t)
    | none => none)
  { version := "1.0"
    inputDelimiter := options.inputDelimiter
    outputDelimiter := options.outputDelimiter
    decimalSeparator := options.decimalSeparator
    mappings := mappingsObj
    typeTransformations := if typeObj = [] then none else some typeObj
    transformations := if transObj = [] then none else some transObj
    valueConversions := none }

/-! ## Import state machine (`applySchemaConfig` in `src/unnamed/part_001`) -/

/-- A JSON value as far as the import validators inspect it: a string, or
anything else (`typeof x !== "string"`). -/
inductive JValue where
  | str (s : String)
  | other
deriving DecidableEq, Repr

/-- The incoming schema config document: keyed objects are association lists
in document order, absent optional keys are `none`. -/
structure SchemaConfig where
  mappings : List (String × JValue)
  typeTransformations : Option (List (String × JValue))
  transformations : Option (List (String × JValue))
  inputDelimiter : Option String
  outputDelimiter : Option String
  decimalSeparator : Option String
  valueConversions : Option (List (String × List (String × String)))
deriving Repr

/-- The caller-owned signals `applySchemaConfig` can read and write. -/
structure MapperState where
  mappings : List ColumnMapping
  inputDelimiter : String
  outputDelimiter : String
  decimalSeparator : String
  importError : Option String
deriving DecidableEq, Repr

/-- First loop of `applySchemaConfig`: every mapping target must be a string. -/
def validateMappingTargets : List (String × JValue) → Option String
  | [] => none
  | (_, JValue.str _) :: rest => validateMappingTargets rest
  | (source, JValue.other) :: _ =>
    some ("Mapping '" ++ source ++ "': target must be a string")

/-- Loop body over `typeTransformations`: values must be strings among the
valid types. -/
def validateTypeList : List (String × JValue) → Option String
  | [] => none
  | (source, v) :: rest =>
    match v with
    | JValue.str t =>
      if ["string", "integer", "number", "boolean"].contains t then validateTypeList rest
      else some ("Type transformation '" ++ source ++
        "': must be one of: string, integer, number, boolean")
    | JValue.other =>
      some ("Type transformation '" ++ source ++
        "': must be one of: string, integer, number, boolean")

/-- Second check of `applySchemaConfig` (skipped when the key is absent). -/
def validateTypeTransformations : Option (List (String × JValue)) → Option String
  | none => none
  | some l => validateTypeList l

/-- Loop body over `transformations`: values must be strings matching the
transformation grammar. -/
def validateTransList : List (String × JValue) → Option String
  | [] => none
  | (source, v) :: rest =>
    match v with
    | JValue.str t =>
      if ["uppercase", "lowercase", "trim", "date"].contains t
          || t.startsWith "dateFormat:" || t.startsWith "date:" then
        validateTransList rest
      else
        some ("Transformation '" ++ source ++
          "': must be one of: uppercase, lowercase, trim, date, dateFormat:FORMAT, or date[:sourceFormat][:targetFormat]")
    | JValue.other => some ("Transformation '" ++ source ++ "': must be a string")

/-- Third check of `applySchemaConfig` (skipped when the key is absent). -/
def validateTransformations : Option (List (String × JValue)) → Option String
  | none => none
  | some l => validateTransList l

/-- Delimiter check: an absent key passes; a present value must be one of the
three supported delimiters. -/
def delimiterOk : Option String → Bool
  | none => true
  | some d => ["," , ";", "\t"].contains d

/-- Decimal-separator check: an absent key passes; a present value must be
`.` or `,`. -/
def decSepOk : Option String → Bool
  | none => true
  | some d => [".", ","].contains d

/-- The keys of `config.mappings` that are not headers of the loaded table,
in document order. -/
def missingHeaders (cfg : SchemaConfig) (parsedCSV : ParsedCSV) : List String :=
  (cfg.mappings.map Prod.fst).filter (fun source => ¬ parsedCSV.headers.contains source)

/-- String value of a key in a JSON object association list (first binding;
the validated configs hold only string values where this is used). -/
def jlookupStr (l : List (String × JValue)) (key : String) : Option String :=
  match l.find? (fun p => p.1 = key) with
  | some (_, JValue.str s) => some s
  | _ => none

/-- The rebuilt `ColumnMapping` list of the success path: one entry per
header of the loaded table. -/
def rebuildMappings (cfg : SchemaConfig) (parsedCSV : ParsedCSV) : List ColumnMapping :=
  let typeObj := cfg.typeTransformations.getD []
  let transObj := cfg.transformations.getD []
  let convObj := cfg.valueConversions.getD []
  parsedCSV.headers.map (fun header =>
    let isIncluded := cfg.mappings.any (fun p => p.1 = header)
    let targetColumn := if isIncluded then (jlookupStr cfg.mappings header).getD header else header
    let transformationType := (jlookupStr typeObj header).getD ""
    let transformation := jlookupStr transObj header
    let valueConvMap := ((convObj.find? (fun p => p.1 = header)).map Prod.snd).getD []
    let conversions := valueConvMap.map (fun p => Conversion.mk p.1 p.2)
    { sourceColumn := header
      sourceType := transformationType
      targetColumn := targetColumn
      conversions := conversions
      transformation := transformation
      «include» := isIncluded })

/-- The state updates of the success path: truthy delimiters and decimal
separator applied, then the mapping list replaced. -/
def applyConfigState (cfg : SchemaConfig) (parsedCSV : ParsedCSV)
    (st : MapperState) : MapperState :=
  let st :=
    match cfg.inputDelimiter with
    | some d => if d ≠ "" then { st with inputDelimiter := d } else st
    | none => st
  let st :=
    match cfg.outputDelimiter with
    | some d => if d ≠ "" then { st with outputDelimiter := d } else st
    | none => st
  let st :=
    match cfg.decimalSeparator with
    | some d => if d ≠ "" then { st with decimalSeparator := d } else st
    | none => st
  { st with mappings := rebuildMappings cfg parsedCSV }

/-- `applySchemaConfig` from `src/unnamed/part_001` (lines 33-142): the fixed
ordered validation checklist, fail-fast with a specific message, all state
writes after the last check. -/
def applySchemaConfig (cfg : SchemaConfig) (parsedCSV : ParsedCSV)
    (st : MapperState) : Bool × MapperState :=
  match validateMappingTargets cfg.mappings with
  | some e => (false, { st with importError := some e })
  | none =>
  match validateTypeTransformations cfg.typeTransformations with
  | some e => (false, { st with importError := some e })
  | none =>
  match validateTransformations cfg.transformations with
  | some e => (false, { st with importError := some e })
  | none =>
  if ¬ delimiterOk cfg.inputDelimiter then
    (false, { st with
      importError := some "Invalid 'inputDelimiter': must be one of: comma, semicolon, tab" })
  else if ¬ delimiterOk cfg.outputDelimiter then
    (false, { st with
      importError := some "Invalid 'outputDelimiter': must be one of: comma, semicolon, tab" })
  else if ¬ decSepOk cfg.decimalSeparator then
    (false, { st with
      importError := some "Invalid 'decimalSeparator': must be one of: . (period), , (comma)" })
  else if parsedCSV.headers.length = 0 then
    (false, { st with
      importError := some "No CSV loaded. Please load a CSV file first." })
  else if 0 < (missingHeaders cfg parsedCSV).length then
    (false, { st with
      importError := some ("Mapping references columns not in source CSV: " ++
        joinSep ", " (missingHeaders cfg parsedCSV)) })
  else
    (true, applyConfigState cfg parsedCSV st)

/-- The spec's rounding rule for the integer coercion, stated from its words:
".5 rounds up in magnitude, for positive and negative n alike" (round half
away from zero). Used only to compare against the code's rounding. -/
def roundHalfAwayFromZero (q : ℚ) : Int :=
  if 0 ≤ q then ⌊q + 1 / 2⌋ else -⌊-q + 1 / 2⌋

/-! ## Helper lemmas -/

/-- A list member is an infix of the comma-space join. -/
theorem mem_data_infix_joinSep (sep : String) :
    ∀ (l : List String) (x : String), x ∈ l → x.data <:+: (joinSep sep l).data := by
  intro l
  induction l with
  | nil => intro x hx; cases hx
  | cons a as ih =>
    intro x hx
    cases as with
    | nil =>
      rcases List.mem_cons.1 hx with rfl | hx
      · exact ⟨[], [], by simp [joinSep]⟩
      · cases hx
    | cons b bs =>
      rcases List.mem_cons.1 hx with rfl | hx
      · exact ⟨[], (sep ++ joinSep sep (b :: bs)).data, by
          simp [joinSep, String.data_append]⟩
      · obtain ⟨s, t, hst⟩ := ih x hx
        exact ⟨(a ++ sep).data ++ s, t, by
          simp [joinSep, String.data_append, ← hst, List.append_assoc]⟩

/-- ASCII lowercasing preserves emptiness. -/
theorem toLowerStr_eq_empty_iff (s : String) : toLowerStr s = "" ↔ s = "" := by
  cases s with
  | mk data =>
    simp [toLowerStr, String.ext_iff]

/-! ## C6: value-conversion precedence -/

/-- The conversion loop returns the target of the first case-insensitive
match. -/
theorem findConversion_first (value : String) :
    ∀ (convs : List Conversion) (i : ℕ) (hi : i < convs.length),
      toLowerStr (convs.get ⟨i, hi⟩).sourceValue = toLowerStr value →
      (∀ conv ∈ convs.take i, toLowerStr conv.sourceValue ≠ toLowerStr value) →
      findConversion value convs = some (convs.get ⟨i, hi⟩).targetValue := by
  intro convs
  induction convs with
  | nil => intro i hi; cases hi
  | cons c rest ih =>
    intro i hi hmatch hfirst
    cases i with
    | zero =>
      simp only [List.get] at hmatch ⊢
      simp [findConversion, hmatch]
    | succ j =>
      have hc : toLowerStr c.sourceValue ≠ toLowerStr value :=
        hfirst c (by simp [List.take_succ_cons])
      simp only [List.get] at hmatch ⊢
      rw [findConversion, if_neg hc]
      exact ih j (Nat.lt_of_succ_lt_succ hi) hmatch
        (fun conv hconv => hfirst conv (by simp [List.take_succ_cons, hconv]))

/-- C6: if some conversion's `sourceValue` case-insensitively equals the
value, `transformValue` returns the `targetValue` of the first such
conversion, for every source type and decimal separator, and performs no type
coercion. -/
theorem transformValue_conversion_precedence
    (value sourceType decimalSeparator : String) (conversions : List Conversion)
    (i : ℕ) (hi : i < conversions.length)
    (hmatch : toLowerStr (conversions.get ⟨i, hi⟩).sourceValue = toLowerStr value)
    (hfirst : ∀ conv ∈ conversions.take i, toLowerStr conv.sourceValue ≠ toLowerStr value) :
    transformValue value sourceType conversions decimalSeparator =
      (conversions.get ⟨i, hi⟩).targetValue := by
  rw [transformValue, findConversion_first value conversions i hi hmatch hfirst]

/-- Witness for C6, at the spec's example: `coerce("MR", "string",
[{Mr→male}], ".") = "male"`. -/
theorem transformValue_conversion_precedence_witness :
    transformValue "MR" "string" [⟨"Mr", "male"⟩] "." = "male" :=
  transformValue_conversion_precedence "MR" "string" "." [⟨"Mr", "male"⟩] 0
    (by decide) (by decide) (by intro conv hconv; cases hconv)

/-! ## C10: empty-sourceValue conversions rewrite empty cells -/

/-- C10: a conversion list containing an empty-`sourceValue` entry rewrites
the empty cell value to the `targetValue` of the first such entry, for every
source type and decimal separator. -/
theorem transformValue_empty_source_conversion
    (sourceType decimalSeparator : String) (conversions : List Conversion)
    (c : Conversion)
    (hfind : conversions.find? (fun cv => cv.sourceValue == "") = some c) :
    transformValue "" sourceType conversions decimalSeparator = c.targetValue := by
  induction conversions with
  | nil => simp at hfind
  | cons c0 rest ih =>
    by_cases h0 : c0.sourceValue = ""
    · rw [List.find?_cons_of_pos _ (by simp [h0])] at hfind
      injection hfind with hfind
      subst hfind
      rw [transformValue, findConversion,
        if_pos (by simp [h0, toLowerStr])]
    · rw [List.find?_cons_of_neg _ (by simp [h0])] at hfind
      have hne : toLowerStr c0.sourceValue ≠ toLowerStr "" := by
        intro h
        exact h0 ((toLowerStr_eq_empty_iff c0.sourceValue).1 (by simpa [toLowerStr] using h))
      have := ih hfind
      rw [transformValue] at this ⊢
      rw [findConversion, if_neg hne]
      exact this

/-- Witness for C10: the first empty-`sourceValue` entry wins. -/
theorem transformValue_empty_source_conversion_witness :
    transformValue "" "integer" [⟨"x", "y"⟩, ⟨"", "EMPTY"⟩, ⟨"", "OTHER"⟩] "." = "EMPTY" :=
  transformValue_empty_source_conversion "integer" "."
    [⟨"x", "y"⟩, ⟨"", "EMPTY"⟩, ⟨"", "OTHER"⟩] ⟨"", "EMPTY"⟩ (by decide)

/-! ## C8: explicit-format date transform fails to empty string -/

/-- C8: when parsing under the explicit source format fails, `transformDate`
returns the empty string (not the original value). -/
theorem transformDate_failure_empty (value sourceFormat targetFormat : String)
    (h : tryParseDate value sourceFormat = none) :
    transformDate value sourceFormat targetFormat = "" := by
  rw [transformDate, h]

/-- Witness for C8 at a failing parse. -/
theorem transformDate_failure_empty_witness :
    tryParseDate "15/01/2024" "yyyy-MM-dd" = none ∧
    transformDate "15/01/2024" "yyyy-MM-dd" "dd.MM.yyyy" = "" :=
  ⟨by decide, transformDate_failure_empty "15/01/2024" "yyyy-MM-dd" "dd.MM.yyyy" (by decide)⟩

/-! ## C7: date auto-detection order and examples -/

/-- C7: auto-detection tries exactly `yyyy-MM-dd`, `dd/MM/yyyy`,
`dd-MM-yyyy`, `dd.MM.yyyy`, `yyyy/MM/dd` in that order and returns the first
successful parse (none if all fail); consequently
`applyTransformation("15/01/2024", "date") = "2024-01-15"` and
`applyTransformation("2024-13-40", "date") = ""`. -/
theorem parseDateAutoDetect_fixed_order :
    (∀ v, parseDateAutoDetect v =
      firstParse v ["yyyy-MM-dd", "dd/MM/yyyy", "dd-MM-yyyy", "dd.MM.yyyy", "yyyy/MM/dd"]) ∧
    applyTransformation "15/01/2024" (some "date") = "2024-01-15" ∧
    applyTransformation "2024-13-40" (some "date") = "" := by
  refine ⟨fun v => ?_, by decide, by decide⟩
  by_cases hv : v = ""
  · subst hv
    simp [parseDateAutoDetect, firstParse, tryParseDate]
  · simp [parseDateAutoDetect, hv, DATE_FORMATS]

/-! ## C4: integer coercion rounding -/

/-- Evaluation of the numeric parse at `"-2.5"` (the rational arithmetic is
left to `norm_num`; the kernel evaluates the string pipeline). -/
theorem parseNumber_neg25_eval : parseNumber "-2.5" "." = some (-(5 / 2 : ℚ)) := by
  have h : parseNumber "-2.5" "." =
      some ((-1 : ℚ) * scalePow10 (((2 : ℕ) : ℚ) + ((5 : ℕ) : ℚ) / 10 ^ (1 : ℕ)) 0) := rfl
  rw [h]
  norm_num [scalePow10]

/-- Evaluation of the numeric parse at `"2.5"`. -/
theorem parseNumber_25_eval : parseNumber "2.5" "." = some (5 / 2 : ℚ) := by
  have h : parseNumber "2.5" "." =
      some ((1 : ℚ) * scalePow10 (((2 : ℕ) : ℚ) + ((5 : ℕ) : ℚ) / 10 ^ (1 : ℕ)) 0) := rfl
  rw [h]
  norm_num [scalePow10]

/-- Counterexample to C4 as stated: the code rounds `-2.5` to `-2`
(JS `Math.round`, half toward positive infinity), while round half away from
zero gives `-3`. -/
theorem transformValue_integer_negative_half :
    parseNumber "-2.5" "." = some (-(5 / 2 : ℚ)) ∧
    roundHalfAwayFromZero (-(5 / 2 : ℚ)) = -3 ∧
    transformValue "-2.5" "integer" [] "." = "-2" ∧
    transformValue "-2.5" "integer" [] "." ≠
      toString (roundHalfAwayFromZero (-(5 / 2 : ℚ))) := by
  have hr : roundHalfAwayFromZero (-(5 / 2 : ℚ)) = -3 := by
    rw [roundHalfAwayFromZero, if_neg (by norm_num)]
    norm_num
  have hj : jsRound (-(5 / 2 : ℚ)) = -2 := by
    rw [jsRound]
    norm_num
  have ht : transformValue "-2.5" "integer" [] "." = "-2" := by
    have h3 : transformValue "-2.5" "integer" [] "." = toString (jsRound (-(5 / 2 : ℚ))) := by
      simp [transformValue, findConversion, parseNumber_neg25_eval]
    rw [h3, hj]
    decide
  refine ⟨parseNumber_neg25_eval, hr, ht, ?_⟩
  rw [ht, hr]
  decide

/-- C4 (amended): on a successful numeric parse the integer coercion returns
the string of `⌊n + 1/2⌋` (round half toward positive infinity, the ECMA-262
`Math.round`); on parse failure it returns the original string. -/
theorem transformValue_integer_round (value decimalSeparator : String) :
    (∀ n : ℚ, parseNumber value decimalSeparator = some n →
      transformValue value "integer" [] decimalSeparator = toString ⌊n + 1 / 2⌋) ∧
    (parseNumber value decimalSeparator = none →
      transformValue value "integer" [] decimalSeparator = value) := by
  constructor
  · intro n h
    simp [transformValue, findConversion, h, jsRound]
  · intro h
    simp [transformValue, findConversion, h]

/-- Witness for C4 (amended), on both branches. -/
theorem transformValue_integer_round_witness :
    parseNumber "2.5" "." = some (5 / 2 : ℚ) ∧
    transformValue "2.5" "integer" [] "." = toString ⌊(5 / 2 : ℚ) + 1 / 2⌋ ∧
    parseNumber "abc" "." = none ∧
    transformValue "abc" "integer" [] "." = "abc" :=
  ⟨parseNumber_25_eval, (transformValue_integer_round "2.5" ".").1 (5 / 2) parseNumber_25_eval,
   by decide, (transformValue_integer_round "abc" ".").2 (by decide)⟩

/-! ## C2: exported valueConversions -/

/-- C2 is violated by the code: `exportMappingConfig` never writes a
`valueConversions` key, even for an included column with a non-empty
`sourceValue` conversion. -/
theorem exportMappingConfig_drops_conversions :
    ((ExportMappingOptions.mk
        [{ sourceColumn := "title", sourceType := "string", targetColumn := "gender",
           conversions := [⟨"Mr", "male"⟩], transformation := none, «include» := true }]
        ";" ";" ".").mappings.any
      (fun m => m.«include» && m.conversions.any (fun c => c.sourceValue ≠ ""))) = true ∧
    (exportMappingConfig
      (ExportMappingOptions.mk
        [{ sourceColumn := "title", sourceType := "string", targetColumn := "gender",
           conversions := [⟨"Mr", "male"⟩], transformation := none, «include» := true }]
        ";" ";" ".")).valueConversions = none := by
  refine ⟨by decide, by decide⟩

/-! ## C5: boolean 1/0 output rule -/

/-- Counterexample to C5 as stated: a value-conversion rewrite to `"true"`
on a column whose `sourceType` is `"string"` is emitted as `"true"`, not
`"1"` — the binary rewrite is gated on `sourceType === "boolean"`. -/
theorem generateOutputCSV_conversion_not_binary :
    generateOutputCSV ⟨["h"], [["x"]]⟩
      [{ sourceColumn := "h", sourceType := "string", targetColumn := "h",
         conversions := [⟨"x", "true"⟩], transformation := none, «include» := true }]
      ';' "." = "h\ntrue" ∧
    generateOutputCSV ⟨["h"], [["x"]]⟩
      [{ sourceColumn := "h", sourceType := "string", targetColumn := "h",
         conversions := [⟨"x", "true"⟩], transformation := none, «include» := true }]
      ';' "." ≠ "h\n1" := by
  refine ⟨by decide, by decide⟩

/-- C5 (amended): in the output generator the `"true"`/`"false"` to
`"1"`/`"0"` rewrite applies exactly to the cells of columns whose declared
`sourceType` is `"boolean"`; every other column's coerced-and-transformed
value passes to quoting unchanged. -/
theorem outputCell_boolean_rule
    (headers row : List String) (delimiter : Char) (decimalSeparator : String)
    (m : ColumnMapping) (i : ℕ)
    (hidx : headers.indexOf? m.sourceColumn = some i) :
    outputCell headers row delimiter decimalSeparator m =
      quoteIfNeeded delimiter
        (let transformed := applyTransformation
          (transformValue (row.getD i "") m.sourceType m.conversions decimalSeparator)
          m.transformation
        if m.sourceType = "boolean" then
          if transformed = "true" then "1"
          else if transformed = "false" then "0"
          else transformed
        else transformed) := by
  rw [outputCell, hidx]

/-- Witness for C5 (amended): the spec's boolean round trip, `"Yes"` in a
boolean column rendered as `"1"`. -/
theorem outputCell_boolean_rule_witness :
    outputCell ["h"] ["Yes"] ';' "."
      { sourceColumn := "h", sourceType := "boolean", targetColumn := "h",
        conversions := [], transformation := none, «include» := true } = "1" :=
  (outputCell_boolean_rule ["h"] ["Yes"] ';' "."
    { sourceColumn := "h", sourceType := "boolean", targetColumn := "h",
      conversions := [], transformation := none, «include» := true } 0 (by decide)).trans
    (by decide)

/-! ## C9: delimiter detection -/

/-- C9: `detectDelimiter` always returns comma, semicolon or tab; the result
is the fixed tie-break over the per-line averages of the counts outside
quoted spans on the first up-to-10 lines; and the spec's two examples. -/
theorem detectDelimiter_spec :
    (∀ text, detectDelimiter text = ',' ∨ detectDelimiter text = ';' ∨
      detectDelimiter text = '\t') ∧
    (∀ text,
      detectDelimiter text =
        if sampleLines text = [] then ','
        else
          let counts := countLines (sampleLines text)
          let n : ℚ := (sampleLines text).length
          if 1 ≤ (counts.2.2 : ℚ) / n ∧ (counts.1 : ℚ) / n ≤ (counts.2.2 : ℚ) / n ∧
              (counts.2.1 : ℚ) / n ≤ (counts.2.2 : ℚ) / n then '\t'
          else if 1 ≤ (counts.2.1 : ℚ) / n ∧ (counts.1 : ℚ) / n ≤ (counts.2.1 : ℚ) / n then ';'
          else ',') ∧
    detectDelimiter "a;b;c\n1;2;3\n4;5;6" = ';' ∧
    detectDelimiter "a,b,c\n1,2,3" = ',' := by
  refine ⟨fun text => ?_, fun text => rfl, ?_, ?_⟩
  · simp only [detectDelimiter]
    split
    · exact Or.inl rfl
    · split
      · exact Or.inr (Or.inr rfl)
      · split
        · exact Or.inr (Or.inl rfl)
        · exact Or.inl rfl
  · have h1 : sampleLines "a;b;c\n1;2;3\n4;5;6" = ["a;b;c", "1;2;3", "4;5;6"] := rfl
    have h2 : countLines ["a;b;c", "1;2;3", "4;5;6"] = (0, 6, 0) := rfl
    simp only [detectDelimiter, h1, h2]
    norm_num
    exact fun h => nomatch h
  · have h1 : sampleLines "a,b,c\n1,2,3" = ["a,b,c", "1,2,3"] := rfl
    have h2 : countLines ["a,b,c", "1,2,3"] = (4, 0, 0) := rfl
    simp only [detectDelimiter, h1, h2]
    norm_num

/-! ## C1: atomic import -/

/-- C1: every failing validation check leaves the mapping list, delimiters
and decimal separator untouched and sets an error; in the unknown-column case
the error message is the fixed prefix followed by the comma-joined missing
keys, so it names every unknown key. -/
theorem applySchemaConfig_atomic (cfg : SchemaConfig) (csv : ParsedCSV) (st : MapperState) :
    ((applySchemaConfig cfg csv st).1 = false →
      ((applySchemaConfig cfg csv st).2.mappings = st.mappings ∧
       (applySchemaConfig cfg csv st).2.inputDelimiter = st.inputDelimiter ∧
       (applySchemaConfig cfg csv st).2.outputDelimiter = st.outputDelimiter ∧
       (applySchemaConfig cfg csv st).2.decimalSeparator = st.decimalSeparator ∧
       (applySchemaConfig cfg csv st).2.importError.isSome = true)) ∧
    (validateMappingTargets cfg.mappings = none →
     validateTypeTransformations cfg.typeTransformations = none →
     validateTransformations cfg.transformations = none →
     delimiterOk cfg.inputDelimiter = true →
     delimiterOk cfg.outputDelimiter = true →
     decSepOk cfg.decimalSeparator = true →
     csv.headers ≠ [] →
     missingHeaders cfg csv ≠ [] →
     (applySchemaConfig cfg csv st =
        (false, { st with importError := some ("Mapping references columns not in source CSV: " ++
          joinSep ", " (missingHeaders cfg csv)) }) ∧
      ∀ k ∈ missingHeaders cfg csv,
        k.data <:+: ("Mapping references columns not in source CSV: " ++
          joinSep ", " (missingHeaders cfg csv)).data)) := by
  constructor
  · rw [applySchemaConfig]
    repeat' split
    all_goals simp
  · intro h1 h2 h3 h4 h5 h6 h7 h8
    have hmiss : 0 < (missingHeaders cfg csv).length := List.length_pos.2 h8
    have happ : applySchemaConfig cfg csv st =
        (false, { st with importError := some ("Mapping references columns not in source CSV: " ++
          joinSep ", " (missingHeaders cfg csv)) }) := by
      rw [applySchemaConfig, h1, h2, h3, h4, h5, h6]
      simp [List.length_eq_zero, h7, hmiss]
    refine ⟨happ, fun k hk => ?_⟩
    obtain ⟨s, t, hst⟩ := mem_data_infix_joinSep ", " (missingHeaders cfg csv) k hk
    exact ⟨"Mapping references columns not in source CSV: ".data ++ s, t, by
      rw [String.data_append, ← hst]
      simp [List.append_assoc]⟩

/-- Witness for C1: importing a mapping for `"zipcode"` against a table with
only a `"name"` header fails, preserves the state, and the message names
`"zipcode"`. -/
theorem applySchemaConfig_atomic_witness :
    (applySchemaConfig
        (SchemaConfig.mk [("zipcode", JValue.str "zip")] none none none none none none)
        (ParsedCSV.mk ["name"] [])
        (MapperState.mk [] ";" ";" "." none)).1 = false ∧
    (applySchemaConfig
        (SchemaConfig.mk [("zipcode", JValue.str "zip")] none none none none none none)
        (ParsedCSV.mk ["name"] [])
        (MapperState.mk [] ";" ";" "." none)).2.mappings = [] ∧
    (applySchemaConfig
        (SchemaConfig.mk [("zipcode", JValue.str "zip")] none none none none none none)
        (ParsedCSV.mk ["name"] [])
        (MapperState.mk [] ";" ";" "." none)).2.importError.isSome = true ∧
    "zipcode".data <:+: ("Mapping references columns not in source CSV: " ++
      joinSep ", " (missingHeaders
        (SchemaConfig.mk [("zipcode", JValue.str "zip")] none none none none none none)
        (ParsedCSV.mk ["name"] []))).data :=
  ⟨by decide,
   ((applySchemaConfig_atomic
      (SchemaConfig.mk [("zipcode", JValue.str "zip")] none none none none none none)
      (ParsedCSV.mk ["name"] [])
      (MapperState.mk [] ";" ";" "." none)).1 (by decide)).1,
   ((applySchemaConfig_atomic
      (SchemaConfig.mk [("zipcode", JValue.str "zip")] none none none none none none)
      (ParsedCSV.mk ["name"] [])
      (MapperState.mk [] ";" ";" "." none)).1 (by decide)).2.2.2.2,
   ((applySchemaConfig_atomic
      (SchemaConfig.mk [("zipcode", JValue.str "zip")] none none none none none none)
      (ParsedCSV.mk ["name"] [])
      (MapperState.mk [] ";" ";" "." none)).2 (by decide) (by decide) (by decide)
      (by decide) (by decide) (by decide) (by decide) (by decide)).2
     "zipcode" (by decide)⟩

/-! ## C3: CSV round-trip -/

/-- Folding the parser over escaped field content inside quotes appends the
content to the current field. -/
theorem foldl_stepChar_escapeQ (sep : Char) :
    ∀ (f acc : List Char) (rec : List String) (rs : List (List String)),
      List.foldl (stepChar sep) (PState.mk PMode.inQuoted acc rec rs) (escapeQ f) =
        PState.mk PMode.inQuoted (acc ++ f) rec rs := by
  intro f
  induction f with
  | nil => intro acc rec rs; simp [escapeQ]
  | cons c r ih =>
    intro acc rec rs
    by_cases hc : c = '"'
    · subst hc
      simp only [escapeQ, if_pos rfl, List.foldl_cons]
      rw [show stepChar sep (PState.mk PMode.inQuoted acc rec rs) '"' =
            PState.mk PMode.afterQuote acc rec rs from by simp [stepChar]]
      rw [show stepChar sep (PState.mk PMode.afterQuote acc rec rs) '"' =
            PState.mk PMode.inQuoted (acc ++ ['"']) rec rs from by simp [stepChar]]
      rw [ih]
      simp
    · simp only [escapeQ, if_neg hc, List.foldl_cons]
      rw [show stepChar sep (PState.mk PMode.inQuoted acc rec rs) c =
            PState.mk PMode.inQuoted (acc ++ [c]) rec rs from by simp [stepChar, hc]]
      rw [ih]
      simp

/-- Folding the parser over one quoted field from the start of a field reads
exactly that field's content and stops after the closing quote. -/
theorem foldl_stepChar_quoteField (sep : Char) (s : String) (rec : List String)
    (rs : List (List String)) :
    List.foldl (stepChar sep) (PState.mk PMode.startField [] rec rs) (quoteField s) =
      PState.mk PMode.afterQuote s.data rec rs := by
  rw [quoteField, List.foldl_cons]
  rw [show stepChar sep (PState.mk PMode.startField [] rec rs) '"' =
        PState.mk PMode.inQuoted [] rec rs from by simp [stepChar]]
  rw [List.foldl_append, foldl_stepChar_escapeQ]
  simp [stepChar]

/-- Folding the parser over a newline-terminated all-quoted record finishes
the record. -/
theorem foldl_stepChar_recordNL (sep : Char) (hq : sep ≠ '"') (hn : sep ≠ '\n') :
    ∀ (fs : List String) (f : String) (rec : List String) (rs : List (List String)),
      List.foldl (stepChar sep) (PState.mk PMode.startField [] rec rs)
          (recordLine sep (f :: fs) ++ ['\n']) =
        PState.mk PMode.startField [] [] (rs ++ [rec ++ (f :: fs)]) := by
  have hns : ¬('\n' = sep) := fun h => hn h.symm
  intro fs
  induction fs with
  | nil =>
    intro f rec rs
    simp only [recordLine, List.map_cons, List.map_nil, joinCharSep]
    rw [List.foldl_append, foldl_stepChar_quoteField]
    simp [stepChar, hns]
  | cons g gs ih =>
    intro f rec rs
    have hrl : recordLine sep (f :: g :: gs) =
        quoteField f ++ (sep :: recordLine sep (g :: gs)) := by
      simp [recordLine, joinCharSep]
    rw [hrl, List.append_assoc, List.foldl_append, foldl_stepChar_quoteField]
    rw [show (sep :: recordLine sep (g :: gs)) ++ ['\n'] =
          sep :: (recordLine sep (g :: gs) ++ ['\n']) from by simp]
    rw [List.foldl_cons]
    rw [show stepChar sep (PState.mk PMode.afterQuote f.data rec rs) sep =
          PState.mk PMode.startField [] (rec ++ [f]) rs from by simp [stepChar, hq]]
    rw [ih]
    simp

/-- Finalizing after folding the parser over a final (unterminated) all-quoted
record closes that record. -/
theorem finalizeP_foldl_recordEOF (sep : Char) (hq : sep ≠ '"') :
    ∀ (fs : List String) (f : String) (rec : List String) (rs : List (List String)),
      finalizeP (List.foldl (stepChar sep) (PState.mk PMode.startField [] rec rs)
          (recordLine sep (f :: fs))) = rs ++ [rec ++ (f :: fs)] := by
  intro fs
  induction fs with
  | nil =>
    intro f rec rs
    simp only [recordLine, List.map_cons, List.map_nil, joinCharSep]
    rw [foldl_stepChar_quoteField]
    simp [finalizeP]
  | cons g gs ih =>
    intro f rec rs
    have hrl : recordLine sep (f :: g :: gs) =
        quoteField f ++ (sep :: recordLine sep (g :: gs)) := by
      simp [recordLine, joinCharSep]
    rw [hrl, List.foldl_append, foldl_stepChar_quoteField, List.foldl_cons]
    rw [show stepChar sep (PState.mk PMode.afterQuote f.data rec rs) sep =
          PState.mk PMode.startField [] (rec ++ [f]) rs from by simp [stepChar, hq]]
    rw [ih]
    simp

/-- Parsing the newline-join of serialized nonempty records recovers exactly
those records (on top of previously accumulated ones). -/
theorem finalizeP_foldl_records (sep : Char) (hq : sep ≠ '"') (hn : sep ≠ '\n') :
    ∀ (rs : List (List String)) (acc : List (List String)), rs ≠ [] →
      (∀ r ∈ rs, r ≠ []) →
      finalizeP (List.foldl (stepChar sep) (PState.mk PMode.startField [] [] acc)
          (joinCharSep '\n' (rs.map (recordLine sep)))) = acc ++ rs := by
  intro rs
  induction rs with
  | nil => intro acc h; cases h rfl
  | cons r rest ih =>
    intro acc _ hall
    obtain ⟨f, fs, rfl⟩ : ∃ f fs, r = f :: fs := by
      cases r with
      | nil => exact absurd rfl (hall [] (List.mem_cons_self _ _))
      | cons f fs => exact ⟨f, fs, rfl⟩
    cases rest with
    | nil =>
      simp only [List.map_cons, List.map_nil, joinCharSep]
      rw [finalizeP_foldl_recordEOF sep hq]
      simp
    | cons r2 rest2 =>
      simp only [List.map_cons]
      rw [show joinCharSep '\n' (recordLine sep (f :: fs) :: recordLine sep r2 ::
            (rest2.map (recordLine sep))) =
          (recordLine sep (f :: fs) ++ ['\n']) ++ joinCharSep '\n'
            (recordLine sep r2 :: (rest2.map (recordLine sep))) from by
        simp [joinCharSep]]
      rw [List.foldl_append, foldl_stepChar_recordNL sep hq hn]
      rw [show PState.mk PMode.startField [] [] (acc ++ [[] ++ (f :: fs)]) =
            PState.mk PMode.startField [] [] (acc ++ [f :: fs]) from by simp]
      rw [show recordLine sep r2 :: (rest2.map (recordLine sep)) =
            (r2 :: rest2).map (recordLine sep) from by simp]
      rw [ih (acc ++ [f :: fs]) (List.cons_ne_nil _ _)
        (fun x hx => hall x (List.mem_cons_of_mem _ hx))]
      simp

/-- Every serialized record of a nonempty record ends with a quote. -/
theorem recordLine_ends_quote (sep : Char) :
    ∀ (r : List String), r ≠ [] → ∃ xs, recordLine sep r = xs ++ ['"'] := by
  intro r
  induction r with
  | nil => intro h; cases h rfl
  | cons f fs ih =>
    intro _
    cases fs with
    | nil =>
      refine ⟨'"' :: escapeQ f.data, ?_⟩
      simp [recordLine, joinCharSep, quoteField]
    | cons g gs =>
      obtain ⟨xs, hxs⟩ := ih (List.cons_ne_nil _ _)
      refine ⟨quoteField f ++ sep :: xs, ?_⟩
      simp [recordLine, joinCharSep] at hxs ⊢
      simp [hxs]

/-- Every serialized record of a nonempty record starts with a quote. -/
theorem recordLine_starts_quote (sep : Char) :
    ∀ (r : List String), r ≠ [] → ∃ ys, recordLine sep r = '"' :: ys := by
  intro r
  induction r with
  | nil => intro h; cases h rfl
  | cons f fs _ =>
    intro _
    cases fs with
    | nil => exact ⟨escapeQ f.data ++ ['"'], by simp [recordLine, joinCharSep, quoteField]⟩
    | cons g gs =>
      refine ⟨(escapeQ f.data ++ ['"']) ++ sep :: joinCharSep sep
        ((g :: gs).map (quoteField ∘ id)), ?_⟩
      simp [recordLine, joinCharSep, quoteField]

/-- The full serialization of nonempty records ends with a quote. -/
theorem stdStringify_ends_quote (sep : Char) :
    ∀ (rs : List (List String)), rs ≠ [] → (∀ r ∈ rs, r ≠ []) →
      ∃ xs, stdStringify sep rs = xs ++ ['"'] := by
  intro rs
  induction rs with
  | nil => intro h; cases h rfl
  | cons r rest ih =>
    intro _ hall
    cases rest with
    | nil =>
      obtain ⟨xs, hxs⟩ := recordLine_ends_quote sep r (hall r (List.mem_cons_self _ _))
      exact ⟨xs, by simpa [stdStringify, joinCharSep] using hxs⟩
    | cons r2 rest2 =>
      obtain ⟨xs, hxs⟩ := ih (List.cons_ne_nil _ _)
        (fun x hx => hall x (List.mem_cons_of_mem _ hx))
      refine ⟨recordLine sep r ++ '\n' :: xs, ?_⟩
      simp only [stdStringify, List.map_cons] at hxs ⊢
      rw [show joinCharSep '\n' (recordLine sep r :: recordLine sep r2 ::
            (rest2.map (recordLine sep))) =
          recordLine sep r ++ '\n' :: joinCharSep '\n'
            (recordLine sep r2 :: (rest2.map (recordLine sep))) from by
        simp [joinCharSep]]
      rw [hxs]
      simp

/-- The full serialization of nonempty records starts with a quote. -/
theorem stdStringify_starts_quote (sep : Char) :
    ∀ (rs : List (List String)), rs ≠ [] → (∀ r ∈ rs, r ≠ []) →
      ∃ ys, stdStringify sep rs = '"' :: ys := by
  intro rs
  cases rs with
  | nil => intro h; cases h rfl
  | cons r rest =>
    intro _ hall
    obtain ⟨ys, hys⟩ := recordLine_starts_quote sep r (hall r (List.mem_cons_self _ _))
    cases rest with
    | nil => exact ⟨ys, by simpa [stdStringify, joinCharSep] using hys⟩
    | cons r2 rest2 =>
      refine ⟨ys ++ '\n' :: joinCharSep '\n' (recordLine sep r2 ::
        (rest2.map (recordLine sep))), ?_⟩
      simp only [stdStringify, List.map_cons]
      rw [show joinCharSep '\n' (recordLine sep r :: recordLine sep r2 ::
            (rest2.map (recordLine sep))) =
          recordLine sep r ++ '\n' :: joinCharSep '\n'
            (recordLine sep r2 :: (rest2.map (recordLine sep))) from by
        simp [joinCharSep]]
      rw [hys]
      simp

/-- Trailing-whitespace trimming is the identity on a list ending in a
quote. -/
theorem dropTrailingWs_append_quote (xs : List Char) :
    dropTrailingWs (xs ++ ['"']) = xs ++ ['"'] := by
  simp [dropTrailingWs, List.dropWhile_cons, jsWhitespace]

/-- JS trimming is the identity on a list starting and ending with quotes. -/
theorem jsTrimList_of_quotes (cs : List Char) (h1 : ∃ ys, cs = '"' :: ys)
    (h2 : ∃ xs, cs = xs ++ ['"']) : jsTrimList cs = cs := by
  obtain ⟨ys, rfl⟩ := h1
  obtain ⟨xs, hxs⟩ := h2
  rw [jsTrimList, List.dropWhile_cons]
  rw [show (jsWhitespace '"') = false from rfl]
  simp only [Bool.false_eq_true, if_false]
  rw [hxs, dropTrailingWs_append_quote]

/-- C3 (amended): the round trip holds for every nonempty header list and
every row matrix whose rows are nonempty, fields with embedded delimiters and
quotes included (the serializer model always quotes, per §4.3). -/
theorem parseCSV_stringifyCSV_roundTrip (headers : List String)
    (rows : List (List String)) (hH : headers ≠ []) (hR : ∀ r ∈ rows, r ≠ []) :
    parseCSV (stringifyCSV headers rows ';') ';' = ParsedCSV.mk headers rows := by
  have hall : ∀ r ∈ headers :: rows, r ≠ [] := by
    intro r hr
    rcases List.mem_cons.1 hr with rfl | hr
    · exact hH
    · exact hR r hr
  have hne : (headers :: rows) ≠ [] := List.cons_ne_nil _ _
  obtain ⟨xs, hxs⟩ := stdStringify_ends_quote ';' (headers :: rows) hne hall
  obtain ⟨ys, hys⟩ := stdStringify_starts_quote ';' (headers :: rows) hne hall
  have hdt : dropTrailingWs (stdStringify ';' (headers :: rows)) =
      stdStringify ';' (headers :: rows) := by
    rw [hxs]
    exact dropTrailingWs_append_quote xs
  have hs : stringifyCSV headers rows ';' =
      (⟨stdStringify ';' (headers :: rows)⟩ : String) := by
    rw [stringifyCSV, if_neg hH, hdt]
  have htrim : jsTrimList (stdStringify ';' (headers :: rows)) =
      stdStringify ';' (headers :: rows) :=
    jsTrimList_of_quotes _ ⟨ys, hys⟩ ⟨xs, hxs⟩
  have hnen : stdStringify ';' (headers :: rows) ≠ [] := by
    rw [hys]
    exact List.cons_ne_nil _ _
  have hpr : parseRecords ';' (stdStringify ';' (headers :: rows)) = headers :: rows := by
    rw [parseRecords, stdStringify]
    have := finalizeP_foldl_records ';' (by decide) (by decide)
      (headers :: rows) [] hne hall
    simpa [stdStringify] using this
  rw [hs, parseCSV]
  simp only [htrim]
  rw [if_neg hnen, hpr]

/-- Counterexample to C3 as stated: the round trip fails for an empty header
list (the serializer returns `""`) and for an empty row (dropped by the
end-trim of the serialized text). -/
theorem parseCSV_stringifyCSV_degenerate :
    parseCSV (stringifyCSV [] [["a"]] ';') ';' ≠ ParsedCSV.mk [] [["a"]] ∧
    parseCSV (stringifyCSV ["h"] [[]] ';') ';' ≠ ParsedCSV.mk ["h"] [[]] := by
  refine ⟨by decide, by decide⟩

/-- Witness for C3 (amended): a round trip through fields containing the
delimiter, quotes and a newline. -/
theorem parseCSV_stringifyCSV_roundTrip_witness :
    parseCSV (stringifyCSV ["a", "b;c"] [["x\"y", "1;2"], ["", "u\nv"]] ';') ';' =
      ParsedCSV.mk ["a", "b;c"] [["x\"y", "1;2"], ["", "u\nv"]] :=
  parseCSV_stringifyCSV_roundTrip ["a", "b;c"] [["x\"y", "1;2"], ["", "u\nv"]]
    (by decide) (by decide)
